import Mathlib

/-!
Verification development for the FourierVisualizer signal engine.

The engine (`fourier.py` and `blackmanharris7.py`) synthesizes periodic
time-domain signals and computes their single-sided FFT magnitude spectra.
This file gives a shallow embedding of that code: Python floats are modelled
as real numbers, numpy arrays as `List ℝ` (complex FFT data as `List ℂ`),
the mutable `FourierDataObject` instance as an explicit state record passed
through each method, and numpy's random draws as an explicit stream
`rand : ℕ → ℝ` of uniform samples supplied by the caller.
-/

namespace FourierVisualizer

noncomputable section

open Real

/-- Python `str.lower`, modelled on the underlying character list. -/
def str_lower (s : String) : String := String.mk (s.data.map Char.toLower)

/-- The class attribute `__noise_types` of `FourierDataObject`. -/
def noise_types : List String := ["white", "pink", "brown"]

/-- The class attribute `__signal_types` of `FourierDataObject`. -/
def signal_types : List String := ["sine", "square", "sawtooth", "triangle"]

/-- The class attribute `__window_types` of `FourierDataObject`. -/
def window_types : List String :=
  ["bartlett", "blackman", "blackmanharris4", "blackmanharris7", "boxcar",
   "flattop", "hamming", "hanning", "parzen", "triangular", "tukey"]

/-- The class attribute `__sawtooth_types`, the dict `{'left': 0, 'right': 1}`
passed as the `width` argument of `scipy.signal.sawtooth`.  Looking up a key
other than `'left'`/`'right'` raises `KeyError` in Python and is not modelled;
the engine itself only ever passes these two keys. -/
def sawtooth_types (key : String) : ℝ := if key = "right" then 1 else 0

/-- The coefficient list `a_coeffs` of `blackmanharris7.py`. -/
def a_coeffs : List ℝ :=
  [0.27105140069342,
  -0.43329793923448,
  0.21812299954311,
  -0.06592544638803,
  0.01081174209837,
  -0.00077658482522,
  0.00001388721735]

/-- The function `blackmanharris7(N)` of `blackmanharris7.py`: starts from the
constant array `np.full(N, a_coeffs[0])` and, for `k in range(1, len(a_coeffs))`
(that is `k = 1, ..., 6`), adds `a_coeffs[k] * cos(2*pi*k*n / N)` elementwise. -/
def blackmanharris7 (N : ℕ) : List ℝ :=
  (List.range N).map fun (n : ℕ) =>
    ([1, 2, 3, 4, 5, 6] : List ℕ).foldl
      (fun w k => w + a_coeffs.getD k 0 * Real.cos ((2 * π * (k : ℝ) * (n : ℝ)) / (N : ℝ)))
      (a_coeffs.getD 0 0)

/-- The instance state of a `FourierDataObject`.  `signal_data` is an `Option`
because `set_amplitude`/`set_offset` branch on `cls.__signal_data is None`
(the constructor always initializes it, so `none` never occurs after `__init__`).
`noise_data` is the public attribute `cls.noise_data`; before its first
assignment Python would raise `AttributeError`, modelled here as the initial
empty list (an empty buffer can never match a nonempty signal's length). -/
structure FourierDataObject where
  curr_sig_type : String
  curr_noise_type : String
  curr_window_type : String
  start_time : ℝ
  end_time : ℝ
  amplitude : ℝ
  dc_offset : ℝ
  duty_cycle : ℝ
  max_noise : ℝ
  noise_enable : Bool
  window_enable : Bool
  sample_frequency : ℝ
  signal_frequency : ℝ
  sawtooth_type : ℝ
  sample_period : ℝ
  num_samples : ℕ
  enbw : ℝ
  cpg : ℝ
  time_axis_data : List ℝ
  signal_data : Option (List ℝ)
  noise_data : List ℝ
  window_data : List ℝ
  fft_bin_size : ℝ
  fft_bins : List ℝ
  fft_magnitude : List ℂ

/-- `numpy.linspace(a, b, n)` with the default `endpoint=True`:
`n` evenly spaced points `a + (b - a) * i / (n - 1)`; for `n = 1` the single
point `a`, for `n = 0` the empty array. -/
def linspace (a b : ℝ) (n : ℕ) : List ℝ :=
  if n ≤ 1 then (List.range n).map (fun (_ : ℕ) => a)
  else (List.range n).map (fun (i : ℕ) => a + (b - a) * (i : ℝ) / ((n : ℝ) - 1))

/-- `calc_sample_period`: `sample_period = 1.0 / sample_frequency`. -/
def calc_sample_period (s : FourierDataObject) : FourierDataObject :=
  {s with sample_period := 1.0 / s.sample_frequency}

/-- `calc_num_samples`: `num_samples = floor(abs(end_time - start_time) / sample_period)`. -/
def calc_num_samples (s : FourierDataObject) : FourierDataObject :=
  {s with num_samples := (⌊|s.end_time - s.start_time| / s.sample_period⌋).toNat}

/-- `generate_time_axis`: `time_axis_data = np.linspace(start_time, end_time, num_samples)`. -/
def generate_time_axis (s : FourierDataObject) : FourierDataObject :=
  {s with time_axis_data := linspace s.start_time s.end_time s.num_samples}

/-- `equivalent_noise_bandwidth(window=None, dB=False)`:
`enbw = len(window) * (np.sum(window ** 2) / np.sum(window) ** 2)`, stored in
`cls.__enbw` (in decibels, `10 * log10(enbw)`, when `dB` is true). -/
def equivalent_noise_bandwidth (window : Option (List ℝ)) (dB : Bool)
    (s : FourierDataObject) : FourierDataObject :=
  let w := window.getD s.window_data
  let enbw := (w.length : ℝ) * ((w.map fun x => x ^ 2).sum / w.sum ^ 2)
  if ¬dB then {s with enbw := enbw} else {s with enbw := 10 * Real.logb 10 enbw}

/-- `coherent_power_gain(window=None, dB=False)`:
`cpg = np.sum(window) / len(window)`, stored in `cls.__cpg`
(in decibels, `20 * log10(cpg)`, when `dB` is true). -/
def coherent_power_gain (window : Option (List ℝ)) (dB : Bool)
    (s : FourierDataObject) : FourierDataObject :=
  let w := window.getD s.window_data
  let cpg := w.sum / (w.length : ℝ)
  if ¬dB then {s with cpg := cpg} else {s with cpg := 20 * Real.logb 10 cpg}

/-- `numpy.cumsum`: running partial sums of a list. -/
def cumsum (l : List ℝ) : List ℝ :=
  (List.range l.length).map fun (i : ℕ) => (l.take (i + 1)).sum

/-- The dispatch on `cls.__curr_noise_type` in `generate_noise_data`:
white noise is `np.random.uniform(size=len(signal_data)) * max_noise`, brown
noise is `np.cumsum(np.random.uniform(size=len(signal_data))) / num_samples *
max_noise`, the `'pink'` branch is literally `pass`, and any other value only
prints an error message.  `rand i` supplies the i-th uniform `[0, 1)` draw. -/
def generate_noise_core (rand : ℕ → ℝ) (s : FourierDataObject) : FourierDataObject :=
  if s.curr_noise_type = "white" then
    {s with noise_data :=
      ((List.range (s.signal_data.getD []).length).map (fun (i : ℕ) => rand i * s.max_noise))}
  else if s.curr_noise_type = "brown" then
    {s with noise_data :=
      ((cumsum ((List.range (s.signal_data.getD []).length).map (fun (i : ℕ) => rand i))).map
        (fun x => x / (s.num_samples : ℝ) * s.max_noise))}
  else if s.curr_noise_type = "pink" then
    s
  else
    s

/-- `set_noise_type(noise_type, noise_magnitude=None)`: lowercases the name; an
unknown name only prints the accepted noise types and changes nothing;
otherwise stores the optional magnitude and the type and regenerates noise. -/
def set_noise_type (rand : ℕ → ℝ) (noise_type : String) (noise_magnitude : Option ℝ)
    (s : FourierDataObject) : FourierDataObject :=
  let nt := str_lower noise_type
  if nt ∉ noise_types then s
  else
    let s := match noise_magnitude with
      | some m => {s with max_noise := m}
      | none => s
    generate_noise_core rand {s with curr_noise_type := nt}

/-- `generate_noise_data(noise_type=None, noise_magnitude=None)`. -/
def generate_noise_data (rand : ℕ → ℝ) (noise_type : Option String)
    (noise_magnitude : Option ℝ) (s : FourierDataObject) : FourierDataObject :=
  let s := match noise_type with
    | some nt => set_noise_type rand nt none s
    | none => s
  let s := match noise_magnitude with
    | some m => {s with max_noise := m}
    | none => s
  generate_noise_core rand s

/-- `set_signal_type(signal_type, sawtooth_type='left')`: lowercases the name;
an unknown name only prints the accepted signal types and changes nothing;
otherwise stores the type, and for `'sawtooth'` also the slant looked up in
`__sawtooth_types`. -/
def set_signal_type (signal_type : String) (sawtooth : String)
    (s : FourierDataObject) : FourierDataObject :=
  let st := str_lower signal_type
  if st ∉ signal_types then s
  else
    let s := {s with curr_sig_type := st}
    if s.curr_sig_type = "sawtooth" then {s with sawtooth_type := sawtooth_types sawtooth}
    else s

/-- `set_window_type(window_type)`: lowercases the name; an unknown name only
prints the accepted window names and changes nothing; otherwise stores the
type.  (The source then calls `fft_window_data()` and discards its return
value, so no further state changes.) -/
def set_window_type (window_type : String) (s : FourierDataObject) : FourierDataObject :=
  let wt := str_lower window_type
  if wt ∉ window_types then s
  else {s with curr_window_type := wt}

/-- `set_amplitude(amplitude)`: if `signal_data` is `None` only the amplitude
field is set; otherwise the data is divided elementwise by the old amplitude,
the new amplitude is stored, and the data is multiplied by it. -/
def set_amplitude (amplitude : ℝ) (s : FourierDataObject) : FourierDataObject :=
  match s.signal_data with
  | none => {s with amplitude := amplitude}
  | some d =>
      {s with amplitude := amplitude,
              signal_data := some ((d.map fun x => x / s.amplitude).map fun x => x * amplitude)}

/-- `set_offset(offset)`: if `signal_data` is `None` only the offset field is
set; otherwise the old offset is subtracted elementwise, the new offset is
stored, and then added elementwise. -/
def set_offset (offset : ℝ) (s : FourierDataObject) : FourierDataObject :=
  match s.signal_data with
  | none => {s with dc_offset := offset}
  | some d =>
      {s with dc_offset := offset,
              signal_data := some ((d.map fun x => x - s.dc_offset).map fun x => x + offset)}

/-- `set_frequency(frequencyVal)`: stores the value only when it is strictly
positive; otherwise the method body does nothing. -/
def set_frequency (frequencyVal : ℝ) (s : FourierDataObject) : FourierDataObject :=
  if frequencyVal > 0 then {s with signal_frequency := frequencyVal} else s

/-- `scipy.signal.square(t, duty)`: with `tmod = t mod 2*pi`, the value is `+1`
on `tmod < duty * 2*pi` and `-1` otherwise.  (scipy returns `nan` for a duty
outside `[0, 1]`; `nan` has no real-number counterpart and that mask is not
modelled — the engine always passes its `duty_cycle` parameter here.) -/
def scipy_square (t duty : ℝ) : ℝ :=
  let tmod := t - 2 * π * (⌊t / (2 * π)⌋ : ℝ)
  if tmod < duty * (2 * π) then 1 else -1

/-- `scipy.signal.sawtooth(t, width)`: with `tmod = t mod 2*pi`, the value is
`tmod / (pi*width) - 1` on `tmod < width * 2*pi` and
`(pi*(width+1) - tmod) / (pi*(1-width))` otherwise.  (The `nan` mask for a
width outside `[0, 1]` is not modelled, as for `scipy_square`.) -/
def scipy_sawtooth (t width : ℝ) : ℝ :=
  let tmod := t - 2 * π * (⌊t / (2 * π)⌋ : ℝ)
  if tmod < width * (2 * π) then tmod / (π * width) - 1
  else (π * (width + 1) - tmod) / (π * (1 - width))

/-- `generate_time_domain_data(signal_type=None)`: optionally re-dispatches the
signal type, recomputes the sample period, sample count and time axis, fills
`signal_data` according to `curr_sig_type` (an unrecognized type — impossible
through the setters — leaves the old `signal_data`), and when noise is enabled
regenerates noise and adds it elementwise.  The elementwise numpy `+=` raises
on a length mismatch (possible only with a stale noise buffer); that error is
modelled as `none`. -/
def generate_time_domain_data (rand : ℕ → ℝ) (signal_type : Option String)
    (s : FourierDataObject) : Option FourierDataObject :=
  let s := match signal_type with
    | some st => set_signal_type st "left" s
    | none => s
  let s := calc_sample_period s
  let s := calc_num_samples s
  let s := generate_time_axis s
  let s :=
    if s.curr_sig_type = "sine" then
      {s with signal_data := some (s.time_axis_data.map fun t =>
        Real.sin (2 * π * s.signal_frequency * t) * s.amplitude + s.dc_offset)}
    else if s.curr_sig_type = "square" then
      {s with signal_data := some (s.time_axis_data.map fun t =>
        scipy_square (2 * π * s.signal_frequency * t) s.duty_cycle * s.amplitude + s.dc_offset)}
    else if s.curr_sig_type = "sawtooth" then
      {s with signal_data := some (s.time_axis_data.map fun t =>
        scipy_sawtooth (2 * π * s.signal_frequency * t) s.sawtooth_type * s.amplitude + s.dc_offset)}
    else if s.curr_sig_type = "triangle" then
      {s with signal_data := some (s.time_axis_data.map fun t =>
        scipy_sawtooth (2 * π * s.signal_frequency * t) s.duty_cycle * s.amplitude + s.dc_offset)}
    else s
  if s.noise_enable then
    let s := generate_noise_data rand none none s
    if (s.signal_data.getD []).length = s.noise_data.length then
      some {s with signal_data :=
        (some (List.zipWith (· + ·) (s.signal_data.getD []) s.noise_data))}
    else none
  else some s

/-- `construct_square_wave_from_sines(harmonics=7, amplitude=None,
frequency=None, with_noise=None, noise_magnitude=None)`: stores the optional
arguments, recomputes timing and the time axis, sums
`(4/pi) * (1/n) * sin(n * 2*pi*f*t)` over `n in range(1, harmonics*2 + 1, 2)`
(the odd `n` with `1 ≤ n < 2*harmonics + 1`), scales by the amplitude and adds
the offset, then optionally adds noise as in `generate_time_domain_data`. -/
def construct_square_wave_from_sines (rand : ℕ → ℝ) (harmonics : ℕ)
    (amplitude frequency : Option ℝ) (with_noise : Option Bool)
    (noise_magnitude : Option ℝ) (s : FourierDataObject) : Option FourierDataObject :=
  let s := match amplitude with
    | some a => {s with amplitude := a}
    | none => s
  let s := match frequency with
    | some f => {s with signal_frequency := f}
    | none => s
  let s := match noise_magnitude with
    | some m => {s with max_noise := m}
    | none => s
  let s := match with_noise with
    | some b => {s with noise_enable := b}
    | none => s
  let s := calc_sample_period s
  let s := calc_num_samples s
  let s := generate_time_axis s
  let s := {s with signal_data := some (s.time_axis_data.map fun t =>
    (∑ n ∈ (Finset.Ico 1 (2 * harmonics + 1)).filter (fun n => n % 2 = 1),
      (4 / π) * ((1 / (n : ℝ)) * Real.sin ((n : ℝ) * (2 * π) * s.signal_frequency * t)))
    * s.amplitude + s.dc_offset)}
  if s.noise_enable then
    let s := generate_noise_data rand none none s
    if (s.signal_data.getD []).length = s.noise_data.length then
      some {s with signal_data :=
        (some (List.zipWith (· + ·) (s.signal_data.getD []) s.noise_data))}
    else none
  else some s

/-- `fft_window_data()`: dispatches the current window type to the window
generator.  The four special cases of the source are kept; every other name
goes to `scipy.signal.get_window(name, num_samples)`, which is external
library code and is therefore a parameter `get_window` of the embedding
(every scipy window of length `N` is a length-`N` array). -/
def fft_window_data (get_window : String → ℕ → List ℝ)
    (s : FourierDataObject) : List ℝ :=
  if s.curr_window_type = "blackmanharris4" then get_window "blackmanharris" s.num_samples
  else if s.curr_window_type = "blackmanharris7" then blackmanharris7 s.num_samples
  else if s.curr_window_type = "hanning" then get_window "hann" s.num_samples
  else if s.curr_window_type = "triangular" then get_window "triang" s.num_samples
  else get_window s.curr_window_type s.num_samples

/-- `scipy.fft.fft` of a length-`N` sequence:
`X[k] = sum_j x[j] * exp(-2*pi*I*j*k/N)`. -/
def dft (x : List ℂ) : List ℂ :=
  (List.range x.length).map fun (k : ℕ) =>
    ∑ j ∈ Finset.range x.length,
      x.getD j 0 * Complex.exp (-(2 * (π : ℂ) * Complex.I) * (j : ℂ) * (k : ℂ) / (x.length : ℂ))

/-- `generate_freq_domain_data(is_windowed=None)`: computes the bin size,
optionally overrides the window-enable flag, produces the (possibly windowed
and ENBW/CPG-rescaled) two-sided FFT divided by `num_samples`, keeps indices
`0 .. num_samples//2 - 1`, multiplies them by 2, deletes index 0 (the DC bin),
stores the bins `np.arange(1, num_samples//2) * fft_bin_size` and the
magnitudes `20 * np.log10(...)` (numpy's complex base-10 logarithm, since the
unwindowed branch keeps complex values). -/
def generate_freq_domain_data (get_window : String → ℕ → List ℝ)
    (is_windowed : Option Bool) (s : FourierDataObject) : FourierDataObject :=
  let s := {s with fft_bin_size := s.sample_frequency / (s.num_samples : ℝ)}
  let s := match is_windowed with
    | some b => {s with window_enable := b}
    | none => s
  let sf :=
    if s.window_enable then
      let s := {s with window_data := fft_window_data get_window s}
      let s := equivalent_noise_bandwidth none false s
      let s := coherent_power_gain none false s
      let scaling_factor := 1 / (s.cpg / Real.sqrt s.enbw)
      let windowed_signal : List ℝ :=
        List.zipWith (· * ·) s.window_data (s.signal_data.getD [])
      (s, (dft (windowed_signal.map Complex.ofReal)).map
            (fun z => Complex.ofReal (Complex.abs (z / (s.num_samples : ℂ)) * scaling_factor)))
    else
      (s, (dft ((s.signal_data.getD []).map Complex.ofReal)).map
            (fun z => z / (s.num_samples : ℂ)))
  let s := sf.1
  let fft_data := sf.2
  let one_sided_sample_limit := s.num_samples / 2
  let fft_data_one_sided := (fft_data.take one_sided_sample_limit).map (fun z => z * 2)
  let fft_data_one_sided := fft_data_one_sided.drop 1
  {s with
    fft_bins := (List.range (one_sided_sample_limit - 1)).map
      (fun (i : ℕ) => ((i + 1 : ℕ) : ℝ) * s.fft_bin_size),
    fft_magnitude := fft_data_one_sided.map (fun z => 20 * (Complex.log z / Complex.log 10))}

/-- A constant stream of uniform draws, used as the random source in concrete
test states. -/
def rand0 : ℕ → ℝ := fun _ => 0

/-- A scipy window stub for concrete test states: every request yields the
all-ones (boxcar) window of the requested length. -/
def gw0 : String → ℕ → List ℝ := fun _ N => List.replicate N 1

/-- A concrete engine state used as input for the witness theorems: a sine at
1 Hz sampled at 1 Hz over `[0, 1]` (hence a single sample), noise and
windowing disabled. -/
def base : FourierDataObject where
  curr_sig_type := "sine"
  curr_noise_type := "white"
  curr_window_type := "boxcar"
  start_time := 0
  end_time := 1
  amplitude := 1
  dc_offset := 0
  duty_cycle := 0.5
  max_noise := 0.1
  noise_enable := false
  window_enable := false
  sample_frequency := 1
  signal_frequency := 1
  sawtooth_type := 0
  sample_period := 1
  num_samples := 1
  enbw := 1
  cpg := 0
  time_axis_data := [0]
  signal_data := some [0]
  noise_data := []
  window_data := []
  fft_bin_size := 0
  fft_bins := []
  fft_magnitude := []

/-- Concrete state for the spectrum witness: 4 stored samples at 1 Hz. -/
def baseSpec : FourierDataObject :=
  {base with num_samples := 4, signal_data := some [1, 0, 0, 0]}

/-- Concrete state for the amplitude/offset counterexample: as `base` but with
a nonzero DC offset. -/
def baseOffset : FourierDataObject := {base with dc_offset := 1}

/-- Concrete state for the rescale witness: amplitude 2, zero offset, and a
stored signal of the synthesized shape `w t * amplitude + dc_offset`. -/
def baseSine : FourierDataObject :=
  {base with amplitude := 2,
             signal_data := some (base.time_axis_data.map fun t => Real.sin t * 2 + 0)}

/-- Concrete state for the zero-amplitude witness: stored amplitude 0 with
existing signal data. -/
def baseZeroAmp : FourierDataObject :=
  {base with amplitude := 0, signal_data := some [1]}

/-- Concrete state for the pink-noise witness: pink noise selected, with a
stale nonempty noise buffer from an earlier generation. -/
def basePink : FourierDataObject :=
  {base with curr_noise_type := "pink", noise_data := [3]}

end

end FourierVisualizer

namespace FourierVisualizer

noncomputable section

open Real

/-! ### Basic length and preservation lemmas -/

theorem linspace_length (a b : ℝ) (n : ℕ) : (linspace a b n).length = n := by
  unfold linspace
  split <;> simp

theorem blackmanharris7_length (N : ℕ) : (blackmanharris7 N).length = N := by
  unfold blackmanharris7
  simp

theorem dft_length (x : List ℂ) : (dft x).length = x.length := by
  unfold dft
  simp

theorem generate_noise_core_signal (rand : ℕ → ℝ) (s : FourierDataObject) :
    (generate_noise_core rand s).signal_data = s.signal_data := by
  unfold generate_noise_core
  split_ifs <;> rfl

theorem generate_noise_core_num_samples (rand : ℕ → ℝ) (s : FourierDataObject) :
    (generate_noise_core rand s).num_samples = s.num_samples := by
  unfold generate_noise_core
  split_ifs <;> rfl

theorem generate_noise_core_time_axis (rand : ℕ → ℝ) (s : FourierDataObject) :
    (generate_noise_core rand s).time_axis_data = s.time_axis_data := by
  unfold generate_noise_core
  split_ifs <;> rfl

theorem generate_noise_data_none_signal (rand : ℕ → ℝ) (s : FourierDataObject) :
    (generate_noise_data rand none none s).signal_data = s.signal_data := by
  unfold generate_noise_data
  exact generate_noise_core_signal rand s

theorem generate_noise_data_none_num_samples (rand : ℕ → ℝ) (s : FourierDataObject) :
    (generate_noise_data rand none none s).num_samples = s.num_samples := by
  unfold generate_noise_data
  exact generate_noise_core_num_samples rand s

theorem generate_noise_data_none_time_axis (rand : ℕ → ℝ) (s : FourierDataObject) :
    (generate_noise_data rand none none s).time_axis_data = s.time_axis_data := by
  unfold generate_noise_data
  exact generate_noise_core_time_axis rand s

/-! ### C5 — frequency setter contract -/

/-- C5: for every state and every value `v ≤ 0`, the frequency setter is a
silent no-op (no error, nothing in the state changes); for `v > 0` the stored
frequency becomes `v` and nothing else changes. -/
theorem set_frequency_spec (s : FourierDataObject) (v : ℝ) :
    (v ≤ 0 → set_frequency v s = s) ∧
    (0 < v → set_frequency v s = {s with signal_frequency := v}) := by
  constructor
  · intro hv
    unfold set_frequency
    rw [if_neg (by linarith)]
  · intro hv
    unfold set_frequency
    rw [if_pos hv]

/-- Witness for C5 at the concrete state `base`: the setter rejects `-1`
without any state change and stores `2`. -/
theorem set_frequency_spec_witness :
    set_frequency (-1) base = base ∧
    set_frequency 2 base = {base with signal_frequency := 2} :=
  ⟨(set_frequency_spec base (-1)).1 (by norm_num),
   (set_frequency_spec base 2).2 (by norm_num)⟩

/-! ### C8 — unsupported waveform/window names -/

/-- C8 (code evaluated at the failing input): requesting the unsupported
waveform name `"cosine"` or the unsupported window name `"kaiser"` returns
normally with the state — current kind and all derived data — exactly as
before the call.  The source only prints an error message; no `UnsupportedKind`
failure is raised, contradicting the specified error contract. -/
theorem unsupported_kind_silent_no_op (s : FourierDataObject) :
    set_signal_type "cosine" "left" s = s ∧ set_window_type "kaiser" s = s := by
  constructor
  · unfold set_signal_type
    rw [if_pos (by decide)]
  · unfold set_window_type
    rw [if_pos (by decide)]

/-! ### C9 — pink noise branch -/

/-- C9 (code evaluated at the failing input): with `'pink'` selected,
`generate_noise_data` returns normally and leaves the entire state — in
particular the previously generated `noise_data` buffer — unchanged.  The
source's `'pink'` branch is literally `pass`; no `NotImplemented` failure and
no defined empty result is produced, contradicting the specified contract. -/
theorem pink_noise_silent_no_op (rand : ℕ → ℝ) (s : FourierDataObject)
    (hp : s.curr_noise_type = "pink") :
    generate_noise_data rand none none s = s := by
  show generate_noise_core rand s = s
  unfold generate_noise_core
  rw [hp]
  rw [if_neg (by decide), if_neg (by decide), if_pos (by decide)]

/-- Witness for C9 at the concrete state `basePink`, whose stale noise buffer
`[3]` survives the call untouched. -/
theorem pink_noise_silent_no_op_witness :
    generate_noise_data rand0 none none basePink = basePink :=
  pink_noise_silent_no_op rand0 basePink rfl

/-! ### C10 — no zero-amplitude guard in the amplitude setter -/

/-- C10 (code evaluated at the failing input): whenever signal data exists,
`set_amplitude` divides the stored data elementwise by the *old* stored
amplitude unconditionally — there is no branch guarding the case
`amplitude = 0`, contradicting the claimed explicit guard.  (In numpy the
division by zero silently produces `inf`/`nan` values.) -/
theorem set_amplitude_unguarded (s : FourierDataObject) (a : ℝ) (d : List ℝ)
    (hd : s.signal_data = some d) :
    set_amplitude a s =
      {s with amplitude := a,
              signal_data := some ((d.map fun x => x / s.amplitude).map fun x => x * a)} := by
  unfold set_amplitude
  rw [hd]

/-- Witness for C10 at the concrete state `baseZeroAmp`: stored amplitude `0`,
stored data `[1]`; the setter still computes `1 / 0` (real-division model of
the numpy `nan`). -/
theorem set_amplitude_unguarded_witness :
    set_amplitude 1 baseZeroAmp =
      {baseZeroAmp with amplitude := 1, signal_data :=
        (some ((([1] : List ℝ).map fun x => x / baseZeroAmp.amplitude).map fun x => x * 1))} :=
  set_amplitude_unguarded baseZeroAmp 1 [1] rfl

end

end FourierVisualizer

namespace FourierVisualizer

noncomputable section

open Real

/-! ### C6 — the custom 7-term Blackman-Harris window -/

/-- C6: for every window length `N ≥ 1` and every index `n < N`, the
`blackmanharris7` window value equals the 7-term cosine sum
`Σ_{k=0}^{6} a_k * cos(2*pi*k*n / N)` with exactly the specified coefficient
vector (written out verbatim on the right-hand side). -/
theorem blackmanharris7_formula (N n : ℕ) (hN : 1 ≤ N) (hn : n < N) :
    (blackmanharris7 N).getD n 0 =
      0.27105140069342 * Real.cos (2 * π * 0 * (n : ℝ) / (N : ℝ))
      + -0.43329793923448 * Real.cos (2 * π * 1 * (n : ℝ) / (N : ℝ))
      + 0.21812299954311 * Real.cos (2 * π * 2 * (n : ℝ) / (N : ℝ))
      + -0.06592544638803 * Real.cos (2 * π * 3 * (n : ℝ) / (N : ℝ))
      + 0.01081174209837 * Real.cos (2 * π * 4 * (n : ℝ) / (N : ℝ))
      + -0.00077658482522 * Real.cos (2 * π * 5 * (n : ℝ) / (N : ℝ))
      + 0.00001388721735 * Real.cos (2 * π * 6 * (n : ℝ) / (N : ℝ)) := by
  unfold blackmanharris7
  rw [List.getD_eq_getElem?_getD, List.getElem?_map, List.getElem?_range hn]
  simp only [Option.map_some', Option.getD_some, List.foldl_cons, List.foldl_nil]
  norm_num [a_coeffs]

/-- Witness for C6 at `N = 1`, `n = 0`: every cosine is `cos 0 = 1`, so the
window value is the exact sum of the seven coefficients. -/
theorem blackmanharris7_formula_witness :
    (blackmanharris7 1).getD 0 0 = 0.00000005910452 := by
  have h := blackmanharris7_formula 1 0 (by norm_num) (by norm_num)
  rw [h]
  norm_num

/-! ### C7 — window metrics of the boxcar window -/

/-- C7: applying the implemented metric computations to the all-ones
(rectangular/boxcar) window of any length `N ≥ 1` stores exactly
`ENBW = 1` and `CPG = 1`. -/
theorem boxcar_enbw_cpg (N : ℕ) (s : FourierDataObject) (hN : 1 ≤ N) :
    (equivalent_noise_bandwidth (some (List.replicate N (1 : ℝ))) false s).enbw = 1 ∧
    (coherent_power_gain (some (List.replicate N (1 : ℝ))) false s).cpg = 1 := by
  have hN0 : (N : ℝ) ≠ 0 := Nat.cast_ne_zero.mpr (by omega)
  constructor
  · unfold equivalent_noise_bandwidth
    simp [List.map_replicate, List.sum_replicate, nsmul_eq_mul]
    field_simp
    ring
  · unfold coherent_power_gain
    simp [List.sum_replicate, nsmul_eq_mul]
    field_simp

/-- Witness for C7 at the concrete length `N = 4` and state `base`. -/
theorem boxcar_enbw_cpg_witness :
    (equivalent_noise_bandwidth (some (List.replicate 4 (1 : ℝ))) false base).enbw = 1 ∧
    (coherent_power_gain (some (List.replicate 4 (1 : ℝ))) false base).cpg = 1 :=
  boxcar_enbw_cpg 4 base (by norm_num)

/-! ### Reindexing the odd-harmonic sum -/

/-- The stepped Python range `range(1, 2*H + 1, 2)` — the odd numbers below
`2*H + 1` — reindexed as `n = 2*k + 1` for `k < H`. -/
theorem sum_odd_Ico_eq_sum_range (f : ℕ → ℝ) (H : ℕ) :
    ∑ n ∈ (Finset.Ico 1 (2 * H + 1)).filter (fun n => n % 2 = 1), f n
      = ∑ k ∈ Finset.range H, f (2 * k + 1) := by
  induction H with
  | zero => simp
  | succ m ih =>
      rw [Finset.sum_filter] at ih ⊢
      have h1 : 1 ≤ 2 * m + 2 := by omega
      have h2 : 1 ≤ 2 * m + 1 := by omega
      have e1 : 2 * (m + 1) + 1 = (2 * m + 2) + 1 := by ring
      rw [e1, Finset.sum_Ico_succ_top h1, Finset.sum_Ico_succ_top h2]
      have heven : (2 * m + 2) % 2 = 0 := by omega
      rw [Finset.sum_range_succ, ← ih]
      simp [heven]
      omega

end

end FourierVisualizer

namespace FourierVisualizer

noncomputable section

open Real

/-! ### C2 — sample count and sequence-length invariant of synthesis -/

/-- C2: for positive sample frequency and `endTime > startTime`, whenever
`generate_time_domain_data` returns a state, its sample count equals
`floor((endTime - startTime) * sampleFrequencyHz)` and both the time axis and
the signal data have exactly that length.  (The hypothesis on
`curr_sig_type` is the class invariant established by `__init__` and
`set_signal_type`, which only ever store supported names.) -/
theorem synthesis_sample_count_invariant (rand : ℕ → ℝ) (s : FourierDataObject)
    (hfs : 0 < s.sample_frequency) (ht : s.start_time < s.end_time)
    (hsig : s.curr_sig_type ∈ signal_types) :
    ∀ s' ∈ generate_time_domain_data rand none s,
      (s'.num_samples : ℤ) = ⌊(s.end_time - s.start_time) * s.sample_frequency⌋ ∧
      s'.time_axis_data.length = s'.num_samples ∧
      (s'.signal_data.getD []).length = s'.num_samples := by
  have hdur : 0 < s.end_time - s.start_time := sub_pos.mpr ht
  have hdiv : |s.end_time - s.start_time| / (1.0 / s.sample_frequency)
      = (s.end_time - s.start_time) * s.sample_frequency := by
    rw [abs_of_pos hdur, div_div_eq_mul_div]
    norm_num
  have hfloor : (0 : ℤ) ≤ ⌊(s.end_time - s.start_time) * s.sample_frequency⌋ :=
    Int.floor_nonneg.mpr (le_of_lt (mul_pos hdur hfs))
  have hnum : (((⌊|s.end_time - s.start_time| / (1.0 / s.sample_frequency)⌋).toNat : ℕ) : ℤ)
      = ⌊(s.end_time - s.start_time) * s.sample_frequency⌋ := by
    rw [hdiv, Int.toNat_of_nonneg hfloor]
  intro s' hs'
  rw [Option.mem_def] at hs'
  simp only [generate_time_domain_data, calc_sample_period, calc_num_samples,
    generate_time_axis] at hs'
  have hsig' : s.curr_sig_type = "sine" ∨ s.curr_sig_type = "square" ∨
      s.curr_sig_type = "sawtooth" ∨ s.curr_sig_type = "triangle" := by
    simpa [signal_types] using hsig
  rcases hsig' with h | h | h | h <;>
    (rw [h] at hs'
     simp only [String.reduceEq, reduceIte, if_true, if_false] at hs'
     split at hs'
     · -- noise enabled: numpy's elementwise add checks the lengths
       split at hs'
       · next hc =>
           injection hs' with hs''
           subst hs''
           refine ⟨?_, ?_, ?_⟩
           · simpa [generate_noise_data_none_num_samples] using hnum
           · simp [generate_noise_data_none_time_axis, generate_noise_data_none_num_samples,
               linspace_length]
           · simp only [Option.getD_some, List.length_zipWith]
             rw [← hc, min_self, generate_noise_data_none_signal]
             simp [generate_noise_data_none_num_samples, linspace_length]
       · simp at hs'
     · -- noise disabled: the synthesized state is returned directly
       injection hs' with hs''
       subst hs''
       exact ⟨hnum, by simp [linspace_length], by simp [linspace_length]⟩)

/-- Witness for C2 at the concrete state `base` (`fs = 1`, time span `[0, 1]`,
sine, noise off): synthesis returns `base` itself, with one sample. -/
theorem synthesis_sample_count_invariant_witness :
    (base.num_samples : ℤ) = ⌊(base.end_time - base.start_time) * base.sample_frequency⌋ ∧
    base.time_axis_data.length = base.num_samples ∧
    (base.signal_data.getD []).length = base.num_samples := by
  have hmem : base ∈ generate_time_domain_data rand0 none base := by
    rw [Option.mem_def]
    simp only [generate_time_domain_data, calc_sample_period, calc_num_samples,
      generate_time_axis, base, String.reduceEq, reduceIte, if_true, if_false]
    norm_num [linspace, List.range_succ, List.range_zero]
  exact synthesis_sample_count_invariant rand0 base (by norm_num [base]) (by norm_num [base])
    (by simp [base, signal_types]) base hmem

/-! ### C3 — harmonic-constructed square wave -/

/-- General form: without noise, `construct_square_wave_from_sines` stores at
each sample time the odd-harmonic sum reindexed over `k < harmonics`, scaled by
the amplitude, plus the DC offset. -/
theorem construct_square_wave_signal (rand : ℕ → ℝ) (H : ℕ) (s : FourierDataObject)
    (hnoise : s.noise_enable = false) :
    ∀ s' ∈ construct_square_wave_from_sines rand H none none none none s,
      s'.signal_data = some (s'.time_axis_data.map fun t =>
        s.amplitude * (∑ k ∈ Finset.range H, (4 / π) * (1 / (2 * (k : ℝ) + 1))
          * Real.sin (2 * π * (2 * (k : ℝ) + 1) * s.signal_frequency * t)) + s.dc_offset) := by
  intro s' hs'
  rw [Option.mem_def] at hs'
  simp only [construct_square_wave_from_sines, calc_sample_period, calc_num_samples,
    generate_time_axis, hnoise, Bool.false_eq_true, if_false, reduceIte] at hs'
  injection hs' with hs''
  subst hs''
  refine congrArg some ?_
  have hfun : (fun t => (∑ n ∈ (Finset.Ico 1 (2 * H + 1)).filter (fun n => n % 2 = 1),
        (4 / π) * ((1 / (n : ℝ)) * Real.sin ((n : ℝ) * (2 * π) * s.signal_frequency * t)))
        * s.amplitude + s.dc_offset)
      = fun t => s.amplitude * (∑ k ∈ Finset.range H, (4 / π) * (1 / (2 * (k : ℝ) + 1))
          * Real.sin (2 * π * (2 * (k : ℝ) + 1) * s.signal_frequency * t)) + s.dc_offset := by
    funext t
    rw [sum_odd_Ico_eq_sum_range
      (fun n => (4 / π) * ((1 / (n : ℝ)) * Real.sin ((n : ℝ) * (2 * π) * s.signal_frequency * t)))
      H]
    congr 1
    rw [mul_comm]
    congr 1
    refine Finset.sum_congr rfl fun k _ => ?_
    push_cast
    ring_nf
  rw [hfun]

/-- C3: for every amplitude, offset, frequency and generated time axis, the
harmonic-constructed square wave with `harmonics = H` equals, at each sample
time `t`, `amplitude * Σ_{k<H} (4/π) * (1/(2k+1)) * sin(2π*(2k+1)*f*t) +
offset` (the odd harmonics `n = 1, 3, ..., 2H-1`); with `harmonics = 1` it is
the single-term series `(4/π) * amplitude * sin(2π*f*t) + offset`. -/
theorem construct_square_wave_spec (rand : ℕ → ℝ) (H : ℕ) (s : FourierDataObject)
    (hnoise : s.noise_enable = false) :
    (∀ s' ∈ construct_square_wave_from_sines rand H none none none none s,
      s'.signal_data = some (s'.time_axis_data.map fun t =>
        s.amplitude * (∑ k ∈ Finset.range H, (4 / π) * (1 / (2 * (k : ℝ) + 1))
          * Real.sin (2 * π * (2 * (k : ℝ) + 1) * s.signal_frequency * t)) + s.dc_offset)) ∧
    (∀ s' ∈ construct_square_wave_from_sines rand 1 none none none none s,
      s'.signal_data = some (s'.time_axis_data.map fun t =>
        (4 / π) * s.amplitude * Real.sin (2 * π * s.signal_frequency * t) + s.dc_offset)) := by
  refine ⟨construct_square_wave_signal rand H s hnoise, fun s' hs' => ?_⟩
  rw [construct_square_wave_signal rand 1 s hnoise s' hs']
  refine congrArg some ?_
  have hfun : (fun t => s.amplitude * (∑ k ∈ Finset.range 1, (4 / π) * (1 / (2 * (k : ℝ) + 1))
        * Real.sin (2 * π * (2 * (k : ℝ) + 1) * s.signal_frequency * t)) + s.dc_offset)
      = fun t => (4 / π) * s.amplitude * Real.sin (2 * π * s.signal_frequency * t)
          + s.dc_offset := by
    funext t
    rw [Finset.sum_range_one]
    norm_num
    ring_nf
  rw [hfun]

/-- Witness for C3 at the concrete state `base` with a single harmonic. -/
theorem construct_square_wave_spec_witness :
    base.signal_data = some (base.time_axis_data.map fun t =>
      base.amplitude * (∑ k ∈ Finset.range 1, (4 / π) * (1 / (2 * (k : ℝ) + 1))
        * Real.sin (2 * π * (2 * (k : ℝ) + 1) * base.signal_frequency * t)) + base.dc_offset) ∧
    base.signal_data = some (base.time_axis_data.map fun t =>
      (4 / π) * base.amplitude * Real.sin (2 * π * base.signal_frequency * t)
        + base.dc_offset) := by
  have hmem : base ∈ construct_square_wave_from_sines rand0 1 none none none none base := by
    rw [Option.mem_def]
    simp only [construct_square_wave_from_sines, calc_sample_period, calc_num_samples,
      generate_time_axis, base, String.reduceEq, reduceIte, if_true, if_false]
    norm_num [linspace, List.range_succ, List.range_zero]
  exact ⟨(construct_square_wave_spec rand0 1 base rfl).1 base hmem,
         (construct_square_wave_spec rand0 1 base rfl).2 base hmem⟩

/-! ### C4 — amplitude/offset rescale-in-place contract -/

/-- C4 counterexample: starting from `baseOffset` (sine, amplitude 1, DC
offset 1, one sample at `t = 0`, stored value `1`), setting amplitude `2` and
offset `1` on the synthesized state yields `[2]`, while direct re-synthesis
with amplitude `2` and offset `1` yields `[1]`.  `set_amplitude` divides out
only the old amplitude, not the old offset, so the offset component gets
scaled along with the signal, contradicting the claim. -/
theorem set_amplitude_rescale_cex :
    (generate_time_domain_data rand0 none baseOffset).map
        (fun s1 => (set_offset 1 (set_amplitude 2 s1)).signal_data)
      ≠ (generate_time_domain_data rand0 none {baseOffset with amplitude := 2}).map
          (fun s2 => s2.signal_data) := by
  have hL : (generate_time_domain_data rand0 none baseOffset).map
      (fun s1 => (set_offset 1 (set_amplitude 2 s1)).signal_data)
      = some (some [2]) := by
    simp only [generate_time_domain_data, calc_sample_period, calc_num_samples,
      generate_time_axis, set_amplitude, set_offset, baseOffset, base,
      String.reduceEq, reduceIte, if_true, if_false]
    norm_num [linspace, List.range_succ, List.range_zero]
  have hR : (generate_time_domain_data rand0 none {baseOffset with amplitude := 2}).map
      (fun s2 => s2.signal_data)
      = some (some [1]) := by
    simp only [generate_time_domain_data, calc_sample_period, calc_num_samples,
      generate_time_axis, baseOffset, base, String.reduceEq, reduceIte, if_true, if_false]
    norm_num [linspace, List.range_succ, List.range_zero]
  rw [hL, hR]
  simp

/-- C4 amended: when signal data of the synthesized shape
`w t * amplitude + dc_offset` exists, `set_offset` rescales it in place to
exactly what direct re-synthesis with the new offset would produce, and
`set_amplitude` (which divides by the old amplitude — necessarily nonzero —
and multiplies by the new one) matches direct re-synthesis exactly when the
stored DC offset is zero. -/
theorem set_offset_amplitude_rescale (s : FourierDataObject) (w : ℝ → ℝ) (A O : ℝ)
    (hA : s.amplitude ≠ 0)
    (hd : s.signal_data
      = some (s.time_axis_data.map fun t => w t * s.amplitude + s.dc_offset)) :
    (set_offset O s).signal_data
        = some (s.time_axis_data.map fun t => w t * s.amplitude + O) ∧
    (s.dc_offset = 0 →
      (set_amplitude A s).signal_data
        = some (s.time_axis_data.map fun t => w t * A + s.dc_offset)) := by
  constructor
  · unfold set_offset
    rw [hd]
    refine congrArg some ?_
    rw [List.map_map, List.map_map]
    refine congrArg (fun f => List.map f s.time_axis_data) ?_
    funext t
    simp only [Function.comp_apply]
    ring
  · intro h0
    unfold set_amplitude
    rw [hd]
    refine congrArg some ?_
    rw [List.map_map, List.map_map]
    refine congrArg (fun f => List.map f s.time_axis_data) ?_
    funext t
    simp only [Function.comp_apply, h0, add_zero]
    rw [mul_div_assoc, div_self hA, mul_one]

/-- Witness for the amended C4 at the concrete state `baseSine` (amplitude 2,
offset 0, stored signal `sin t * 2 + 0` over the one-point time axis). -/
theorem set_offset_amplitude_rescale_witness :
    (set_offset 7 baseSine).signal_data
        = some (baseSine.time_axis_data.map fun t => Real.sin t * baseSine.amplitude + 7) ∧
    (set_amplitude 3 baseSine).signal_data
        = some (baseSine.time_axis_data.map fun t => Real.sin t * 3 + baseSine.dc_offset) := by
  have h := set_offset_amplitude_rescale baseSine Real.sin 3 7
    (by norm_num [baseSine, base]) (by simp [baseSine, base])
  exact ⟨h.1, h.2 (by simp [baseSine, base])⟩

/-! ### C1 — shape of the single-sided spectrum -/

theorem fft_window_data_length (get_window : String → ℕ → List ℝ)
    (hgw : ∀ name N, (get_window name N).length = N) (s : FourierDataObject) :
    (fft_window_data get_window s).length = s.num_samples := by
  unfold fft_window_data
  split_ifs <;> simp [hgw, blackmanharris7_length]

theorem getD_map_range (m i : ℕ) (f : ℕ → ℝ) (hi : i < m) :
    ((List.range m).map f).getD i 0 = f i := by
  rw [List.getD_eq_getElem?_getD, List.getElem?_map, List.getElem?_range hi]
  rfl

/-- The common tail of `generate_freq_domain_data`: for any two-sided FFT data
of length `N`, the stored bins and magnitudes have length `N/2 - 1`, the bins
are `(i+1) * binSize`, and no bin is zero when the bin size is positive. -/
theorem spectrum_tail_facts {N : ℕ} {fr : ℝ} {D : List ℂ}
    (hfr : 0 < fr) (hD : D.length = N) :
    ((List.range (N / 2 - 1)).map (fun (i : ℕ) => ((i + 1 : ℕ) : ℝ) * fr)).length
        = N / 2 - 1 ∧
    ((((D.take (N / 2)).map (fun z => z * 2)).drop 1).map
        (fun z => 20 * (Complex.log z / Complex.log 10))).length = N / 2 - 1 ∧
    (∀ i, i < N / 2 - 1 →
      ((List.range (N / 2 - 1)).map (fun (i : ℕ) => ((i + 1 : ℕ) : ℝ) * fr)).getD i 0
        = ((i : ℝ) + 1) * fr) ∧
    (0 : ℝ) ∉ (List.range (N / 2 - 1)).map (fun (i : ℕ) => ((i + 1 : ℕ) : ℝ) * fr) := by
  refine ⟨by simp, ?_, ?_, ?_⟩
  · simp [List.length_take, hD, Nat.min_eq_left (Nat.div_le_self N 2)]
  · intro i hi
    rw [getD_map_range _ _ _ hi]
    push_cast
    rfl
  · intro hmem
    rcases List.mem_map.mp hmem with ⟨i, _, hi0⟩
    have hpos : (0 : ℝ) < ((i + 1 : ℕ) : ℝ) * fr :=
      mul_pos (by exact_mod_cast Nat.succ_pos i) hfr
    rw [hi0] at hpos
    exact lt_irrefl 0 hpos

/-- C1: for every analysis run with `num_samples ≥ 2`, positive sample
frequency and signal data of length `num_samples`, the computed spectrum
consists of `fft_bins` and `fft_magnitude` both of length exactly
`num_samples / 2 - 1`, with `bins[i] = (i+1) * (sampleFrequency / num_samples)`
for every retained index, and no zero-frequency entry in the returned bins.
The window library is a parameter constrained to produce length-`N` windows,
as scipy does. -/
theorem spectrum_shape (get_window : String → ℕ → List ℝ) (is_windowed : Option Bool)
    (s : FourierDataObject) (hN : 2 ≤ s.num_samples) (hfs : 0 < s.sample_frequency)
    (hlen : (s.signal_data.getD []).length = s.num_samples)
    (hgw : ∀ name N, (get_window name N).length = N) :
    (generate_freq_domain_data get_window is_windowed s).fft_bins.length
        = s.num_samples / 2 - 1 ∧
    (generate_freq_domain_data get_window is_windowed s).fft_magnitude.length
        = s.num_samples / 2 - 1 ∧
    (∀ i, i < s.num_samples / 2 - 1 →
      (generate_freq_domain_data get_window is_windowed s).fft_bins.getD i 0
        = ((i : ℝ) + 1) * (s.sample_frequency / (s.num_samples : ℝ))) ∧
    (0 : ℝ) ∉ (generate_freq_domain_data get_window is_windowed s).fft_bins := by
  have hNpos : 0 < s.num_samples := by omega
  have hbin : 0 < s.sample_frequency / (s.num_samples : ℝ) :=
    div_pos hfs (by exact_mod_cast hNpos)
  rcases is_windowed with _ | b
  · simp only [generate_freq_domain_data, equivalent_noise_bandwidth, coherent_power_gain]
    cases hwe : s.window_enable
    · simp only [hwe, Bool.false_eq_true, if_false, reduceIte]
      refine spectrum_tail_facts hbin ?_
      simp [dft_length, hlen]
    · simp only [hwe, if_true, reduceIte]
      refine spectrum_tail_facts hbin ?_
      simp [dft_length, List.length_zipWith, List.length_map,
        fft_window_data_length get_window hgw, hlen]
  · cases b
    · simp only [generate_freq_domain_data, equivalent_noise_bandwidth, coherent_power_gain,
        Bool.false_eq_true, if_false, reduceIte]
      refine spectrum_tail_facts hbin ?_
      simp [dft_length, hlen]
    · simp only [generate_freq_domain_data, equivalent_noise_bandwidth, coherent_power_gain,
        if_true, reduceIte]
      refine spectrum_tail_facts hbin ?_
      simp [dft_length, List.length_zipWith, List.length_map,
        fft_window_data_length get_window hgw, hlen]

/-- Witness for C1 at the concrete state `baseSpec` (4 stored samples at 1 Hz,
unwindowed): one retained bin, at frequency `1 * (1/4)`, and no zero bin. -/
theorem spectrum_shape_witness :
    (generate_freq_domain_data gw0 none baseSpec).fft_bins.length = 1 ∧
    (generate_freq_domain_data gw0 none baseSpec).fft_magnitude.length = 1 ∧
    (generate_freq_domain_data gw0 none baseSpec).fft_bins.getD 0 0
        = ((0 : ℝ) + 1) * (baseSpec.sample_frequency / (baseSpec.num_samples : ℝ)) ∧
    (0 : ℝ) ∉ (generate_freq_domain_data gw0 none baseSpec).fft_bins := by
  have h := spectrum_shape gw0 none baseSpec (by norm_num [baseSpec, base])
    (by norm_num [baseSpec, base]) (by simp [baseSpec, base])
    (fun name N => by simp [gw0])
  refine ⟨?_, ?_, ?_, h.2.2.2⟩
  · rw [h.1]
    norm_num [baseSpec, base]
  · rw [h.2.1]
    norm_num [baseSpec, base]
  · have h3 := h.2.2.1 0 (by norm_num [baseSpec, base])
    simpa using h3
